import Mathlib

/-!
Shallow embedding of the room-geometry and object-interaction engine of the
3D-Room-Planner repository, and proofs about it.

Sources embedded here:
* `src/three/objects/Room.js` (src/unnamed/part_007): `isClockwise`,
  `Room.buildFromPolygon`, `Room.createWalls`, `Room.updateWallVisibility`.
* `src/three/SceneManager.js`: the undo/redo stack (`undo`, `redo`,
  `applyObjectState`, `getObjectState`).
* `src/three/InteractionManager.js`: `startDrag` (grab offset) and
  `handleTranslation` (floor-plane constrained translation).
* `src/three/FloorDimensionEditor.js` (src/unnamed/part_005):
  `_createEdgeLabels` (edge-length label placement).

Real-number arithmetic of the source is embedded as exact rational
arithmetic (`ℚ`).  The only irrational operation the embedded code paths
use is `Math.sqrt`; wherever it matters it is either replaced by the
equivalent comparison of squares (`Math.sqrt s < c ↔ s < c²` for
`s, c ≥ 0`), or passed in as an explicit parameter characterised by
hypotheses (`0 ≤ len ∧ len * len = s`).
-/

namespace RoomPlanner

/-- A floor-plane point `{x, z}` as used by `Room.buildFromPolygon` and the
floor dimension editor (y is implicitly 0 for floor features). -/
structure Point where
  x : ℚ
  z : ℚ
deriving DecidableEq, Repr

/-- The list of consecutive (open-path) edges `(pts[i], pts[i+1])` of a point
list; helper for `cycleEdges`. -/
def pathEdges : List Point → List (Point × Point)
  | a :: b :: rest => (a, b) :: pathEdges (b :: rest)
  | _ => []

/-- The cyclic edge list `(pts[i], pts[(i+1) % n])` for `i = 0 .. n-1`,
exactly the pairs iterated by the loops of `isClockwise`,
`Room.createWalls` and `FloorDimensionEditor._createEdgeLabels`:
the `n-1` consecutive path edges followed by the wrap-around edge
`(pts[n-1], pts[0])`. -/
def cycleEdges : List Point → List (Point × Point)
  | [] => []
  | a :: t => pathEdges (a :: t) ++ [(t.getLastD a, a)]

/-- One term of the shoelace-style sum of `isClockwise` (Room.js):
`(next.x - current.x) * (next.z + current.z)` for the edge
`(current, next)`. -/
def edgeTerm (e : Point × Point) : ℚ :=
  (e.2.x - e.1.x) * (e.2.z + e.1.z)

/-- The full signed shoelace-style sum accumulated by the loop of
`isClockwise` (Room.js lines 469-478). -/
def shoelace (points : List Point) : ℚ :=
  ((cycleEdges points).map edgeTerm).sum

/-- `isClockwise` from Room.js: fewer than 2 points returns `false`
("not enough points to determine"); otherwise the polygon counts as
clockwise iff the shoelace sum is `> 0`. -/
def isClockwise (points : List Point) : Bool :=
  if points.length < 2 then false
  else decide (0 < shoelace points)

/-- The winding-normalization step of `Room.buildFromPolygon`
(Room.js lines 520-523): if the points are clockwise, reverse them to
counter-clockwise order, otherwise keep them as given. -/
def normalizeWinding (points : List Point) : List Point :=
  if isClockwise points then points.reverse else points

/-- The zero-length-protection test of `Room.createWalls`
(Room.js lines 625-628): the source computes
`length = Math.sqrt(dx*dx + dz*dz)` and skips the edge when
`length < 0.001`; since both sides are nonnegative this is equivalent to
the square comparison `dx*dx + dz*dz < 0.001²` used here, which stays in
exact rational arithmetic. -/
def degenerateEdge (e : Point × Point) : Bool :=
  decide ((e.2.x - e.1.x) * (e.2.x - e.1.x) + (e.2.z - e.1.z) * (e.2.z - e.1.z)
    < 1 / 1000000)

/-- The room-local inward direction `(-dz, dx)` that `Room.createWalls`
records for the edge `(a, b)` (`inwardNormalLocalXZ`, Room.js line 643); the
source normalizes this vector, which only rescales it by the positive factor
`1/length`, so the un-normalized direction is kept here. -/
def inwardDir (a b : Point) : Point :=
  { x := -(b.z - a.z), z := b.x - a.x }

/-- One wall segment as produced by `Room.createWalls`: the loop index, the
edge endpoints, the wall-center floor coordinates `((a+b)/2)` and the
room-local inward direction.  The remaining mesh data of the source
(`rotation.y = -atan2(dz, dx)`, the normalized normal and
`wallLength = sqrt(dx²+dz²)`) is derived irrational-valued data determined
by the endpoints kept here and is not needed by any claim. -/
structure Wall where
  index : ℕ
  a : Point
  b : Point
  centerX : ℚ
  centerZ : ℚ
  inwardNormalLocalXZ : Point
deriving DecidableEq, Repr

/-- The wall record built for non-degenerate edge `(a, b)` at loop index
`i` (Room.js lines 630-645). -/
def mkWall (i : ℕ) (e : Point × Point) : Wall :=
  { index := i
    a := e.1
    b := e.2
    centerX := (e.1.x + e.2.x) / 2
    centerZ := (e.1.z + e.2.z) / 2
    inwardNormalLocalXZ := inwardDir e.1 e.2 }

/-- The wall-building loop of `Room.createWalls` over the cyclic edge list:
a degenerate edge is skipped (`continue`) — the index still advances, the
rest of the loop proceeds — every other edge yields one wall. -/
def createWallsAux (i : ℕ) : List (Point × Point) → List Wall
  | [] => []
  | e :: rest =>
    if degenerateEdge e then createWallsAux (i + 1) rest
    else mkWall i e :: createWallsAux (i + 1) rest

/-- `Room.createWalls` (Room.js lines 609-648): guard against fewer than 3
points (warn and return, building nothing), then build one wall per
non-degenerate cyclic edge. -/
def createWalls (pointsToBuildWith : List Point) : List Wall :=
  if pointsToBuildWith.length < 3 then []
  else createWallsAux 0 (cycleEdges pointsToBuildWith)

/-- The room state owned by the `Room` class that the embedded methods
touch: wall height, the stored point list `_currentPoints`, whether a
floor mesh is present in the group, the wall segment list, and the group's
floor-plane position (`group.position` x/z; y is always 0).  The watermark
subsystem is asset loading and is out of scope. -/
structure Room where
  height : ℚ
  points : List Point
  hasFloor : Bool
  walls : List Wall
  groupPosX : ℚ
  groupPosZ : ℚ
deriving DecidableEq, Repr

/-- `Room.buildFromPolygon` (Room.js lines 511-548).  Fewer than 3 points:
warn ("Not enough points to build"), clear `_currentPoints`, clear the room
(which removes floor and wall geometry and empties `wallSegments`) and
return.  Otherwise: copy the points, reverse them if clockwise, clear the
room, create the floor, create the walls unless `isEmpty`, then offset the
group so the point centroid sits at the origin.  The returned `Bool` is
`true` iff the invalid-polygon warning was reported. -/
def buildFromPolygon (room : Room) (points : List Point) (isEmpty : Bool) :
    Room × Bool :=
  if points.length < 3 then
    ({ room with points := [], hasFloor := false, walls := [] }, true)
  else
    let processedPoints := normalizeWinding points
    let n : ℚ := processedPoints.length
    let centerX := (processedPoints.map Point.x).sum / n
    let centerZ := (processedPoints.map Point.z).sum / n
    ({ room with
        points := processedPoints
        hasFloor := true
        walls := if isEmpty then [] else createWalls processedPoints
        groupPosX := -centerX
        groupPosZ := -centerZ }, false)

/-- A 3D vector with exact rational components (embedding
`THREE.Vector3`). -/
structure Vec3 where
  x : ℚ
  y : ℚ
  z : ℚ
deriving DecidableEq, Repr

/-- `THREE.Vector3.dot`. -/
def dot3 (a b : Vec3) : ℚ :=
  a.x * b.x + a.y * b.y + a.z * b.z

/-- A quaternion with exact rational components (embedding
`THREE.Quaternion`). -/
structure Quat where
  qx : ℚ
  qy : ℚ
  qz : ℚ
  qw : ℚ
deriving DecidableEq, Repr

/-- `THREE.Vector3.applyQuaternion`: with `t = 2 * cross(q.xyz, v)` the
result is `v + q.w * t + cross(q.xyz, t)`, written out component-wise
exactly as in the three.js source. -/
def applyQuaternion (q : Quat) (v : Vec3) : Vec3 :=
  let tx := 2 * (q.qy * v.z - q.qz * v.y)
  let ty := 2 * (q.qz * v.x - q.qx * v.z)
  let tz := 2 * (q.qx * v.y - q.qy * v.x)
  { x := v.x + q.qw * tx + q.qy * tz - q.qz * ty
    y := v.y + q.qw * ty + q.qz * tx - q.qx * tz
    z := v.z + q.qw * tz + q.qx * ty - q.qy * tx }

/-- The per-wall render state read and written by
`Room.updateWallVisibility`: the optional room-local inward normal stored
in `userData.inwardNormalLocalXZ`, the `visible` flag, and the material's
opacity. -/
structure WallMesh where
  inwardNormalLocalXZ : Option Vec3
  visible : Bool
  opacity : ℚ
deriving DecidableEq, Repr

/-- The visibility threshold of `Room.updateWallVisibility`
(Room.js line 669): `0.4`. -/
def visibilityThreshold : ℚ := 2 / 5

/-- The `forEach` body of `Room.updateWallVisibility` (Room.js lines
671-681) for one wall: a wall without `inwardNormalLocalXZ` is made
visible; otherwise the room-local inward normal is rotated by the room
group's world quaternion and the wall is visible iff the dot product of
the camera's world direction with that world inward normal is `< 0.4`.
Nothing else on the wall is written — in particular the material opacity
is left untouched. -/
def updateWallVisibilityOne (cameraWorldDirection : Vec3)
    (groupWorldQuaternion : Quat) (w : WallMesh) : WallMesh :=
  match w.inwardNormalLocalXZ with
  | none => { w with visible := true }
  | some n =>
    let worldInwardNormal := applyQuaternion groupWorldQuaternion n
    let dotProduct := dot3 cameraWorldDirection worldInwardNormal
    { w with visible := decide (dotProduct < visibilityThreshold) }

/-- `Room.updateWallVisibility` over the whole wall-segment list. -/
def updateWallVisibility (cameraWorldDirection : Vec3)
    (groupWorldQuaternion : Quat) (walls : List WallMesh) : List WallMesh :=
  walls.map (updateWallVisibilityOne cameraWorldDirection groupWorldQuaternion)

/-- An object's captured transform state, as produced by
`SceneManager.getObjectState` and applied by
`SceneManager.applyObjectState`: position, rotation, scale, plus the
deep-copied `userData`, embedded as an opaque payload. -/
structure ObjState where
  position : Vec3
  rotation : Vec3
  scale : Vec3
  userData : ℕ
deriving DecidableEq, Repr

/-- Scene objects are identified by stable identifiers; the JS source
compares them by reference identity (`===`). -/
abbrev ObjId := ℕ

/-- An entry of the undo/redo stacks of `SceneManager`.  The JS actions are
records switched on their `type` string: `'add'` and `'remove'` carry
`object` and `properties`, `'transform'` carries `object`,
`previousProperties` and `newProperties`; any other `type` string falls
into the `default` branch of `undo`/`redo` and is embedded by
`unknown`. -/
inductive Action where
  | add (object : ObjId) (properties : ObjState)
  | remove (object : ObjId) (properties : ObjState)
  | transform (object : ObjId) (previousProperties newProperties : ObjState)
  | unknown (tag : ℕ)
deriving DecidableEq, Repr

/-- The `SceneManager` state touched by `undo`/`redo`: the scene's
children, the `objects` list, the per-object transform state (in JS each
object carries its own mutable position/rotation/scale; modelled as a map
from identifier to `ObjState`), the selected object, and the two stacks.
Stacks are lists with the top at the head (JS pushes/pops at the array
end). -/
structure SMState where
  sceneObjs : List ObjId
  objects : List ObjId
  states : ObjId → ObjState
  selected : Option ObjId
  undoStack : List Action
  redoStack : List Action

/-- `THREE.Object3D.add` on the scene: if the child is already parented it
is first removed, then appended to the children list. -/
def sceneAdd (l : List ObjId) (o : ObjId) : List ObjId :=
  l.filter (fun c => c ≠ o) ++ [o]

/-- `SceneManager.applyObjectState` on the per-object state map: copy
position, rotation, scale and `userData` of the captured state onto the
object. -/
def applyObjectState (states : ObjId → ObjState) (o : ObjId)
    (st : ObjState) : ObjId → ObjState :=
  fun j => if j = o then st else states j

/-- `SceneManager.undo` (SceneManager.js lines 627-653).  Empty stack: log
and return.  Otherwise pop the top action and switch on its type:
`'add'` → remove the object from the scene and the `objects` list and
deselect it if selected; `'remove'` → re-add the object to scene and list
and restore its captured state; `'transform'` → restore
`previousProperties`; any other type → warn and push the action onto the
redo stack, returning early.  Every handled action is then pushed onto the
redo stack. -/
def undoSM (s : SMState) : SMState :=
  match s.undoStack with
  | [] => s
  | action :: rest =>
    match action with
    | .add obj _props =>
      { s with
          undoStack := rest
          redoStack := action :: s.redoStack
          sceneObjs := s.sceneObjs.filter (fun c => c ≠ obj)
          objects := s.objects.filter (fun c => c ≠ obj)
          selected := if s.selected = some obj then none else s.selected }
    | .remove obj props =>
      { s with
          undoStack := rest
          redoStack := action :: s.redoStack
          sceneObjs := sceneAdd s.sceneObjs obj
          objects := s.objects ++ [obj]
          states := applyObjectState s.states obj props }
    | .transform obj prev _next =>
      { s with
          undoStack := rest
          redoStack := action :: s.redoStack
          states := applyObjectState s.states obj prev }
    | .unknown tag =>
      { s with
          undoStack := rest
          redoStack := Action.unknown tag :: s.redoStack }

/-- `SceneManager.redo` (SceneManager.js lines 655-681), symmetric to
`undo`: `'add'` → re-insert the object and restore its captured state;
`'remove'` → remove it again and deselect if selected; `'transform'` →
apply `newProperties`; any other type → warn and push the action onto the
undo stack, returning early.  Every handled action is then pushed onto the
undo stack. -/
def redoSM (s : SMState) : SMState :=
  match s.redoStack with
  | [] => s
  | action :: rest =>
    match action with
    | .add obj props =>
      { s with
          redoStack := rest
          undoStack := action :: s.undoStack
          sceneObjs := sceneAdd s.sceneObjs obj
          objects := s.objects ++ [obj]
          states := applyObjectState s.states obj props }
    | .remove obj _props =>
      { s with
          redoStack := rest
          undoStack := action :: s.undoStack
          sceneObjs := s.sceneObjs.filter (fun c => c ≠ obj)
          objects := s.objects.filter (fun c => c ≠ obj)
          selected := if s.selected = some obj then none else s.selected }
    | .transform obj _prev next =>
      { s with
          redoStack := rest
          undoStack := action :: s.undoStack
          states := applyObjectState s.states obj next }
    | .unknown tag =>
      { s with
          redoStack := rest
          undoStack := Action.unknown tag :: s.undoStack }

/-- The object an action acts on (`action.object`); `none` for unknown
action kinds. -/
def actionObject : Action → Option ObjId
  | .add o _ => some o
  | .remove o _ => some o
  | .transform o _ _ => some o
  | .unknown _ => none

/-- Consistency of the top undo action with the current state, as holds in
every reachable program state: an `'add'` on top of the undo stack refers
to an object that is present and whose current transform equals the
captured `properties` (it was captured when the object was added and every
later transform above it has been undone); a `'remove'` refers to an
object that is currently absent and whose (detached) transform equals the
state captured at removal; a `'transform'` refers to an object whose
current transform equals `newProperties`.  Unknown kinds are outside the
claim's scope. -/
def actionConsistent (s : SMState) : Action → Prop
  | .add o props => o ∈ s.sceneObjs ∧ o ∈ s.objects ∧ s.states o = props
  | .remove o props => o ∉ s.sceneObjs ∧ o ∉ s.objects ∧ s.states o = props
  | .transform o _prev next => s.states o = next
  | .unknown _ => False

/-- A pointer ray (embedding `THREE.Ray`: `origin + t * direction`). -/
structure Ray where
  origin : Vec3
  dir : Vec3
deriving DecidableEq, Repr

/-- `THREE.Ray.at`: the point `origin + t * direction`. -/
def rayAt (r : Ray) (t : ℚ) : Vec3 :=
  { x := r.origin.x + t * r.dir.x
    y := r.origin.y + t * r.dir.y
    z := r.origin.z + t * r.dir.z }

/-- `THREE.Ray.intersectPlane` specialised to the drag plane that
`InteractionManager.startDrag` sets up: the horizontal floor plane
`y = 0` (normal `(0,1,0)`, constant `0`).  three.js computes
`denom = normal · direction`; if `denom = 0` the ray intersects only if
its origin already lies on the plane (then at `t = 0`); otherwise
`t = -(origin · normal + constant) / denom`, rejected when `t < 0`. -/
def intersectFloorPlane (r : Ray) : Option Vec3 :=
  if r.dir.y = 0 then
    if r.origin.y = 0 then some (rayAt r 0) else none
  else
    let t := -r.origin.y / r.dir.y
    if 0 ≤ t then some (rayAt r t) else none

/-- The grab offset captured by `InteractionManager.startDrag`
(InteractionManager.js lines 170-175): `(hitPoint.x - object.position.x,
0, hitPoint.z - object.position.z)` — no vertical component. -/
def dragOffset (objectPosition hitPoint : Vec3) : Vec3 :=
  { x := hitPoint.x - objectPosition.x
    y := 0
    z := hitPoint.z - objectPosition.z }

/-- `InteractionManager.handleTranslation` (InteractionManager.js lines
207-227): intersect the pointer ray with the floor drag plane; when it
hits, move the object to `(intersection.x - offset.x, currentY,
intersection.z - offset.z)`, keeping the current height; when the ray
misses the plane the position is left unchanged. -/
def handleTranslation (r : Ray) (offset objectPosition : Vec3) : Vec3 :=
  match intersectFloorPlane r with
  | none => objectPosition
  | some intersection =>
    { x := intersection.x - offset.x
      y := objectPosition.y
      z := intersection.z - offset.z }

/-- `labelStyle.offsetFromEdge` of the floor dimension editor
(FloorDimensionEditor.js line 26): `0.18`. -/
def offsetFromEdge : ℚ := 18 / 100

/-- `labelStyle.yPosition` of the floor dimension editor
(FloorDimensionEditor.js line 27): `0.02`. -/
def labelYPosition : ℚ := 1 / 50

/-- The label position computed by the loop body of
`FloorDimensionEditor._createEdgeLabels` (FloorDimensionEditor.js lines
224-243) for the edge `(p1, p2)`: the edge midpoint offset by
`offsetFromEdge` along the perpendicular `(-dz, dx) / segmentLength` with
`segmentLength = max 0.001 length`.  The parameter `length` stands for the
source's `Math.sqrt(dx*dx + dz*dz)` (irrational in general); theorems
characterise it by `0 ≤ length ∧ length * length = dx*dx + dz*dz`. -/
def edgeLabelPos (p1 p2 : Point) (length : ℚ) : Vec3 :=
  let dx := p2.x - p1.x
  let dz := p2.z - p1.z
  let segmentLength := max (1 / 1000) length
  let perpDx := -dz / segmentLength
  let perpDz := dx / segmentLength
  { x := p1.x + dx / 2 + perpDx * offsetFromEdge
    y := labelYPosition
    z := p1.z + dz / 2 + perpDz * offsetFromEdge }

theorem pathEdges_length_cons (a : Point) (t : List Point) :
    (pathEdges (a :: t)).length = t.length := by
  induction t generalizing a with
  | nil => rfl
  | cons b t2 ih => simpa [pathEdges] using ih b

theorem cycleEdges_length (l : List Point) :
    (cycleEdges l).length = l.length := by
  cases l with
  | nil => rfl
  | cons a t => simp [cycleEdges, pathEdges_length_cons]

theorem pathEdges_snoc (a : Point) (l : List Point) (x : Point) :
    pathEdges ((a :: l) ++ [x]) = pathEdges (a :: l) ++ [(l.getLastD a, x)] := by
  induction l generalizing a with
  | nil => rfl
  | cons b t ih =>
    show (a, b) :: pathEdges ((b :: t) ++ [x])
        = ((a, b) :: pathEdges (b :: t)) ++ [((b :: t).getLastD a, x)]
    rw [ih b, List.getLastD_cons, List.cons_append]

theorem pathEdges_reverse : ∀ l : List Point,
    pathEdges l.reverse = ((pathEdges l).map Prod.swap).reverse
  | [] => rfl
  | [_] => rfl
  | a :: b :: t => by
    obtain ⟨c, r, hcr⟩ :=
      List.exists_cons_of_ne_nil (l := (b :: t).reverse) (by simp)
    have hlast : r.getLastD c = b := by
      have h1 : (c :: r).getLast? = some b := by
        rw [← hcr, List.getLast?_reverse]; rfl
      rw [← List.getLastD_cons c c r, List.getLastD_eq_getLast?, h1]; rfl
    have hrev : (a :: b :: t).reverse = (c :: r) ++ [a] := by
      rw [List.reverse_cons, hcr]
    rw [hrev, pathEdges_snoc, hlast, hcr.symm, pathEdges_reverse (b :: t)]
    show _ = ((((a, b) :: pathEdges (b :: t)).map Prod.swap)).reverse
    rw [List.map_cons, List.reverse_cons]
    rfl

theorem cycleEdges_reverse_perm (l : List Point) :
    (cycleEdges l.reverse).Perm ((cycleEdges l).map Prod.swap) := by
  cases l with
  | nil => simp [cycleEdges]
  | cons a t =>
    cases t with
    | nil => simp [cycleEdges, pathEdges]
    | cons b t2 =>
      obtain ⟨c, r, hcr⟩ :=
        List.exists_cons_of_ne_nil (l := (b :: t2).reverse) (by simp)
      have hrev : (a :: b :: t2).reverse = c :: (r ++ [a]) := by
        rw [List.reverse_cons, hcr]; rfl
      have hlast : r.getLastD c = b := by
        have h1 : (c :: r).getLast? = some b := by
          rw [← hcr, List.getLast?_reverse]; rfl
        rw [← List.getLastD_cons c c r, List.getLastD_eq_getLast?, h1]; rfl
      have hwrapL : (r ++ [a]).getLastD c = a := by
        rw [List.getLastD_eq_getLast?, List.getLast?_concat]; rfl
      have hwrapR : (b :: t2).getLastD a = c := by
        rw [List.getLastD_eq_getLast?, ← List.head?_reverse, hcr]; rfl
      have hpath : pathEdges (c :: (r ++ [a]))
          = ((pathEdges (b :: t2)).map Prod.swap).reverse ++ [(b, a)] := by
        show pathEdges ((c :: r) ++ [a]) = _
        rw [pathEdges_snoc, hlast, hcr.symm, pathEdges_reverse (b :: t2)]
      have hL : cycleEdges ((a :: b :: t2).reverse)
          = (((pathEdges (b :: t2)).map Prod.swap).reverse ++ [(b, a)])
            ++ [(a, c)] := by
        rw [hrev]
        show pathEdges (c :: (r ++ [a])) ++ [((r ++ [a]).getLastD c, c)] = _
        rw [hpath, hwrapL]
      have hR : (cycleEdges (a :: b :: t2)).map Prod.swap
          = ((b, a) :: (pathEdges (b :: t2)).map Prod.swap) ++ [(a, c)] := by
        show (pathEdges (a :: b :: t2) ++ [((b :: t2).getLastD a, a)]).map Prod.swap
            = _
        rw [hwrapR, List.map_append]
        rfl
      rw [hL, hR]
      exact List.Perm.append_right [(a, c)]
        (((List.reverse_perm _).append_right [(b, a)]).trans
          (List.perm_append_singleton _ _))

theorem sum_map_neg (l : List ℚ) : (l.map (fun q => -q)).sum = -l.sum := by
  induction l with
  | nil => simp
  | cons a t ih =>
    simp [ih]
    ring

theorem edgeTerm_swap (e : Point × Point) : edgeTerm e.swap = -edgeTerm e := by
  obtain ⟨a, b⟩ := e
  simp only [edgeTerm, Prod.swap]
  ring

theorem shoelace_reverse (l : List Point) : shoelace l.reverse = -shoelace l := by
  unfold shoelace
  rw [((cycleEdges_reverse_perm l).map edgeTerm).sum_eq, List.map_map]
  have h1 : edgeTerm ∘ Prod.swap = (fun q : ℚ => -q) ∘ edgeTerm := by
    funext e
    simp [Function.comp, edgeTerm_swap]
  rw [h1, ← List.map_map, sum_map_neg]

/-- C1: winding normalization in the room build is idempotent.  For a
polygon with at least 3 points: the build classifies the polygon as
clockwise exactly when the shoelace sum over the closed edge cycle is
`> 0`; in that case the point order is reversed exactly once, otherwise it
is left unchanged; and normalizing an already-normalized polygon is a
no-op. -/
theorem winding_normalization_idempotent (pts : List Point)
    (h : 3 ≤ pts.length) :
    (isClockwise pts = true ↔ 0 < shoelace pts) ∧
    (isClockwise pts = true → normalizeWinding pts = pts.reverse) ∧
    (isClockwise pts = false → normalizeWinding pts = pts) ∧
    normalizeWinding (normalizeWinding pts) = normalizeWinding pts := by
  have hlen : ¬ pts.length < 2 := by omega
  have hiff : isClockwise pts = true ↔ 0 < shoelace pts := by
    simp [isClockwise, hlen]
  refine ⟨hiff, ?_, ?_, ?_⟩
  · intro hcw
    simp [normalizeWinding, hcw]
  · intro hcw
    simp [normalizeWinding, hcw]
  · by_cases hcw : isClockwise pts = true
    · have h1 : normalizeWinding pts = pts.reverse := by
        simp [normalizeWinding, hcw]
      have h3 : ¬ pts.reverse.length < 2 := by
        rw [List.length_reverse]; omega
      have h5 : 0 < shoelace pts := hiff.mp hcw
      have h2 : isClockwise pts.reverse = false := by
        simp only [isClockwise, if_neg h3, shoelace_reverse,
          decide_eq_false_iff_not, not_lt]
        linarith
      rw [h1]
      simp [normalizeWinding, h2]
    · have hcw2 : isClockwise pts = false := by simpa using hcw
      simp [normalizeWinding, hcw2]

/-- Witness for C1 at the clockwise triangle (0,0), (0,1), (1,0): it is
reversed once, and normalizing again changes nothing. -/
theorem winding_normalization_idempotent_witness :
    normalizeWinding [⟨0, 0⟩, ⟨0, 1⟩, ⟨1, 0⟩]
        = [(⟨1, 0⟩ : Point), ⟨0, 1⟩, ⟨0, 0⟩] ∧
    normalizeWinding (normalizeWinding [⟨0, 0⟩, ⟨0, 1⟩, ⟨1, 0⟩])
        = normalizeWinding [⟨0, 0⟩, ⟨0, 1⟩, ⟨1, 0⟩] := by
  constructor
  · rw [(winding_normalization_idempotent [⟨0, 0⟩, ⟨0, 1⟩, ⟨1, 0⟩]
      (by decide)).2.1 (by
        norm_num [isClockwise, shoelace, cycleEdges, pathEdges, edgeTerm])]
    rfl
  · exact (winding_normalization_idempotent [⟨0, 0⟩, ⟨0, 1⟩, ⟨1, 0⟩]
      (by decide)).2.2.2

theorem degenerateEdge_swap (e : Point × Point) :
    degenerateEdge e.swap = degenerateEdge e := by
  obtain ⟨a, b⟩ := e
  simp only [degenerateEdge, Prod.swap]
  have h : (a.x - b.x) * (a.x - b.x) + (a.z - b.z) * (a.z - b.z)
      = (b.x - a.x) * (b.x - a.x) + (b.z - a.z) * (b.z - a.z) := by ring
  exact decide_eq_decide.mpr (by rw [h])

theorem countP_cycleEdges_reverse (l : List Point) :
    (cycleEdges l.reverse).countP degenerateEdge
      = (cycleEdges l).countP degenerateEdge := by
  rw [(cycleEdges_reverse_perm l).countP_eq, List.countP_map]
  exact List.countP_congr (fun e _ => by
    simp [Function.comp, degenerateEdge_swap])

theorem createWallsAux_length (i : ℕ) (es : List (Point × Point)) :
    (createWallsAux i es).length = es.length - es.countP degenerateEdge := by
  induction es generalizing i with
  | nil => rfl
  | cons e rest ih =>
    have hle := List.countP_le_length degenerateEdge (l := rest)
    by_cases hdeg : degenerateEdge e
    · simp [createWallsAux, hdeg, List.countP_cons, ih]
    · simp [createWallsAux, hdeg, List.countP_cons, ih]
      omega

theorem createWalls_length (pts : List Point) (h : 3 ≤ pts.length) :
    (createWalls pts).length
      = pts.length - (cycleEdges pts).countP degenerateEdge := by
  have hn : ¬ pts.length < 3 := by omega
  rw [createWalls, if_neg hn, createWallsAux_length, cycleEdges_length]

/-- C2: for every polygon with at least 3 points the room build (a total
function here, so it never crashes) produces exactly `n` wall segments
minus the number of cyclic edges whose Euclidean length is below the
epsilon `0.001` — each degenerate edge is skipped individually while the
rest of the build proceeds — and no invalid-polygon diagnostic is
raised. -/
theorem build_wall_count (room : Room) (pts : List Point)
    (h : 3 ≤ pts.length) :
    ((buildFromPolygon room pts false).1.walls).length
        = pts.length - (cycleEdges pts).countP degenerateEdge ∧
    (buildFromPolygon room pts false).2 = false := by
  have hn : ¬ pts.length < 3 := by omega
  have hw : (buildFromPolygon room pts false).1.walls
      = createWalls (normalizeWinding pts) := by
    simp [buildFromPolygon, hn]
  have hlen2 : (normalizeWinding pts).length = pts.length := by
    unfold normalizeWinding
    split <;> simp
  have hcount : (cycleEdges (normalizeWinding pts)).countP degenerateEdge
      = (cycleEdges pts).countP degenerateEdge := by
    unfold normalizeWinding
    split
    · exact countP_cycleEdges_reverse pts
    · rfl
  have h3 : 3 ≤ (normalizeWinding pts).length := by rw [hlen2]; exact h
  constructor
  · rw [hw, createWalls_length _ h3, hlen2, hcount]
  · simp [buildFromPolygon, hn]

/-- Witness for C2: a 4-point polygon with one duplicated (zero-length)
edge yields exactly 4 - 1 = 3 walls and no diagnostic. -/
theorem build_wall_count_witness :
    ((buildFromPolygon ⟨5 / 2, [], false, [], 0, 0⟩
        [⟨0, 0⟩, ⟨0, 0⟩, ⟨1, 0⟩, ⟨0, 1⟩] false).1.walls).length = 3 ∧
    (buildFromPolygon ⟨5 / 2, [], false, [], 0, 0⟩
        [⟨0, 0⟩, ⟨0, 0⟩, ⟨1, 0⟩, ⟨0, 1⟩] false).2 = false := by
  have h := build_wall_count ⟨5 / 2, [], false, [], 0, 0⟩
      [⟨0, 0⟩, ⟨0, 0⟩, ⟨1, 0⟩, ⟨0, 1⟩] (by decide)
  refine ⟨?_, h.2⟩
  rw [h.1]
  norm_num [cycleEdges, pathEdges, degenerateEdge, List.countP_cons]

/-- C8: calling the room build with fewer than 3 points does not crash
(the embedding is total), reports the invalid-polygon diagnostic, clears
the stored point list and leaves the room with no floor and no wall
geometry. -/
theorem build_rejects_small_polygon (room : Room) (pts : List Point)
    (isEmpty : Bool) (h : pts.length < 3) :
    (buildFromPolygon room pts isEmpty).1.points = [] ∧
    (buildFromPolygon room pts isEmpty).1.hasFloor = false ∧
    (buildFromPolygon room pts isEmpty).1.walls = [] ∧
    (buildFromPolygon room pts isEmpty).2 = true := by
  simp [buildFromPolygon, h]

/-- Witness for C8 at a 2-point polygon and a room that previously had
geometry. -/
theorem build_rejects_small_polygon_witness :
    (buildFromPolygon
        ⟨5 / 2, [⟨0, 0⟩, ⟨1, 0⟩, ⟨0, 1⟩], true,
          [mkWall 0 (⟨0, 0⟩, ⟨1, 0⟩)], 0, 0⟩
        [⟨0, 0⟩, ⟨1, 0⟩] false).1.points = [] ∧
    (buildFromPolygon
        ⟨5 / 2, [⟨0, 0⟩, ⟨1, 0⟩, ⟨0, 1⟩], true,
          [mkWall 0 (⟨0, 0⟩, ⟨1, 0⟩)], 0, 0⟩
        [⟨0, 0⟩, ⟨1, 0⟩] false).1.hasFloor = false ∧
    (buildFromPolygon
        ⟨5 / 2, [⟨0, 0⟩, ⟨1, 0⟩, ⟨0, 1⟩], true,
          [mkWall 0 (⟨0, 0⟩, ⟨1, 0⟩)], 0, 0⟩
        [⟨0, 0⟩, ⟨1, 0⟩] false).1.walls = [] ∧
    (buildFromPolygon
        ⟨5 / 2, [⟨0, 0⟩, ⟨1, 0⟩, ⟨0, 1⟩], true,
          [mkWall 0 (⟨0, 0⟩, ⟨1, 0⟩)], 0, 0⟩
        [⟨0, 0⟩, ⟨1, 0⟩] false).2 = true :=
  build_rejects_small_polygon
    ⟨5 / 2, [⟨0, 0⟩, ⟨1, 0⟩, ⟨0, 1⟩], true,
      [mkWall 0 (⟨0, 0⟩, ⟨1, 0⟩)], 0, 0⟩
    [⟨0, 0⟩, ⟨1, 0⟩] false (by decide)

/-- C3: after a visibility update, a wall carrying an inward normal is
hidden exactly when the dot product of the camera's world view direction
with the wall's world-space inward normal (the room-local inward normal
rotated by the room group's world quaternion) is at least the threshold
0.4, and visible exactly when the dot product is strictly below 0.4. -/
theorem wall_visibility_threshold (cameraWorldDirection : Vec3)
    (groupWorldQuaternion : Quat) (w : WallMesh) (n : Vec3)
    (h : w.inwardNormalLocalXZ = some n) :
    ((updateWallVisibilityOne cameraWorldDirection groupWorldQuaternion w).visible
        = false
      ↔ visibilityThreshold
          ≤ dot3 cameraWorldDirection (applyQuaternion groupWorldQuaternion n)) ∧
    ((updateWallVisibilityOne cameraWorldDirection groupWorldQuaternion w).visible
        = true
      ↔ dot3 cameraWorldDirection (applyQuaternion groupWorldQuaternion n)
          < visibilityThreshold) := by
  simp [updateWallVisibilityOne, h, not_lt]

/-- Witness for C3: with the identity room quaternion, inward normal
(0,0,1) and camera direction (0,0,1) the dot product is 1 ≥ 0.4, so the
wall is hidden. -/
theorem wall_visibility_threshold_witness :
    (updateWallVisibilityOne ⟨0, 0, 1⟩ ⟨0, 0, 0, 1⟩
        ⟨some ⟨0, 0, 1⟩, true, 1⟩).visible = false :=
  (wall_visibility_threshold ⟨0, 0, 1⟩ ⟨0, 0, 0, 1⟩
      ⟨some ⟨0, 0, 1⟩, true, 1⟩ ⟨0, 0, 1⟩ rfl).1.mpr
    (by norm_num [dot3, applyQuaternion, visibilityThreshold])

/-- C4 counterexample: take a wall with inward normal (0,0,1), full
opacity 1, identity room quaternion.  At dot product 0.39 — just below
the 0.4 cutoff, inside any near-threshold band — the update leaves the
opacity at 1 (no partial transparency) and hard-toggles the wall visible;
at dot product 0.41 it hard-toggles the wall hidden, opacity again
untouched.  No transparency ramp is ever set. -/
theorem wall_fade_band_counterexample :
    (updateWallVisibilityOne ⟨0, 0, 39 / 100⟩ ⟨0, 0, 0, 1⟩
        ⟨some ⟨0, 0, 1⟩, true, 1⟩).opacity = 1 ∧
    (updateWallVisibilityOne ⟨0, 0, 39 / 100⟩ ⟨0, 0, 0, 1⟩
        ⟨some ⟨0, 0, 1⟩, true, 1⟩).visible = true ∧
    (updateWallVisibilityOne ⟨0, 0, 41 / 100⟩ ⟨0, 0, 0, 1⟩
        ⟨some ⟨0, 0, 1⟩, true, 1⟩).opacity = 1 ∧
    (updateWallVisibilityOne ⟨0, 0, 41 / 100⟩ ⟨0, 0, 0, 1⟩
        ⟨some ⟨0, 0, 1⟩, true, 1⟩).visible = false := by
  refine ⟨rfl, ?_, rfl, ?_⟩ <;>
    norm_num [updateWallVisibilityOne, dot3, applyQuaternion,
      visibilityThreshold]

/-- C4 amended: the visibility update never modifies a wall's opacity; for
every wall and every dot product value — including values near the 0.4
cutoff — it applies a hard visible/hidden toggle at 0.4 (walls without an
inward normal are simply made visible).  No transparency ramp or fade band
exists in `Room.updateWallVisibility`. -/
theorem wall_visibility_no_fade_band (cameraWorldDirection : Vec3)
    (groupWorldQuaternion : Quat) (w : WallMesh) :
    (updateWallVisibilityOne cameraWorldDirection groupWorldQuaternion
        w).opacity = w.opacity ∧
    (updateWallVisibilityOne cameraWorldDirection groupWorldQuaternion
        w).visible
      = (match w.inwardNormalLocalXZ with
         | none => true
         | some n => decide (dot3 cameraWorldDirection
             (applyQuaternion groupWorldQuaternion n)
               < visibilityThreshold)) := by
  cases h : w.inwardNormalLocalXZ <;> simp [updateWallVisibilityOne, h]

theorem undoSM_add (s : SMState) (o : ObjId) (props : ObjState)
    (rest : List Action) (h : s.undoStack = Action.add o props :: rest) :
    undoSM s
      = { s with
            undoStack := rest
            redoStack := Action.add o props :: s.redoStack
            sceneObjs := s.sceneObjs.filter (fun c => c ≠ o)
            objects := s.objects.filter (fun c => c ≠ o)
            selected := if s.selected = some o then none else s.selected } := by
  unfold undoSM
  rw [h]

theorem undoSM_remove (s : SMState) (o : ObjId) (props : ObjState)
    (rest : List Action) (h : s.undoStack = Action.remove o props :: rest) :
    undoSM s
      = { s with
            undoStack := rest
            redoStack := Action.remove o props :: s.redoStack
            sceneObjs := sceneAdd s.sceneObjs o
            objects := s.objects ++ [o]
            states := applyObjectState s.states o props } := by
  unfold undoSM
  rw [h]

theorem undoSM_transform (s : SMState) (o : ObjId) (prev next : ObjState)
    (rest : List Action)
    (h : s.undoStack = Action.transform o prev next :: rest) :
    undoSM s
      = { s with
            undoStack := rest
            redoStack := Action.transform o prev next :: s.redoStack
            states := applyObjectState s.states o prev } := by
  unfold undoSM
  rw [h]

theorem redoSM_add (s : SMState) (o : ObjId) (props : ObjState)
    (rest : List Action) (h : s.redoStack = Action.add o props :: rest) :
    redoSM s
      = { s with
            redoStack := rest
            undoStack := Action.add o props :: s.undoStack
            sceneObjs := sceneAdd s.sceneObjs o
            objects := s.objects ++ [o]
            states := applyObjectState s.states o props } := by
  unfold redoSM
  rw [h]

theorem redoSM_remove (s : SMState) (o : ObjId) (props : ObjState)
    (rest : List Action) (h : s.redoStack = Action.remove o props :: rest) :
    redoSM s
      = { s with
            redoStack := rest
            undoStack := Action.remove o props :: s.undoStack
            sceneObjs := s.sceneObjs.filter (fun c => c ≠ o)
            objects := s.objects.filter (fun c => c ≠ o)
            selected := if s.selected = some o then none else s.selected } := by
  unfold redoSM
  rw [h]

theorem redoSM_transform (s : SMState) (o : ObjId) (prev next : ObjState)
    (rest : List Action)
    (h : s.redoStack = Action.transform o prev next :: rest) :
    redoSM s
      = { s with
            redoStack := rest
            undoStack := Action.transform o prev next :: s.undoStack
            states := applyObjectState s.states o next } := by
  unfold redoSM
  rw [h]

/-- C5: for every add, remove, or transform action on top of the undo
stack, in a state consistent with that action (as every reachable state
is), calling undo() then redo() restores the exact pre-undo state: the
acted object's presence in the scene and in the object list and its
position/rotation/scale (its full transform state, so "within tolerance"
holds with exact equality) equal what they were immediately before the
undo, the action ends up back on top of the undo stack, and the redo stack
is also restored. -/
theorem undo_redo_roundtrip (s : SMState) (rest : List Action) (a : Action)
    (obj : ObjId) (h : s.undoStack = a :: rest)
    (hobj : actionObject a = some obj) (hwf : actionConsistent s a) :
    (redoSM (undoSM s)).undoStack = s.undoStack ∧
    (redoSM (undoSM s)).redoStack = s.redoStack ∧
    (obj ∈ (redoSM (undoSM s)).sceneObjs ↔ obj ∈ s.sceneObjs) ∧
    (obj ∈ (redoSM (undoSM s)).objects ↔ obj ∈ s.objects) ∧
    (redoSM (undoSM s)).states obj = s.states obj := by
  cases a with
  | add o props =>
    obtain ⟨hscene, hobjs, hstate⟩ := hwf
    obtain rfl : o = obj := by simpa [actionObject] using hobj
    rw [undoSM_add s o props rest h, redoSM_add _ o props s.redoStack rfl]
    refine ⟨h.symm, rfl, ?_, ?_, ?_⟩
    · simp [sceneAdd, hscene]
    · simp [hobjs]
    · simp [applyObjectState, hstate]
  | remove o props =>
    obtain ⟨hscene, hobjs, hstate⟩ := hwf
    obtain rfl : o = obj := by simpa [actionObject] using hobj
    rw [undoSM_remove s o props rest h, redoSM_remove _ o props s.redoStack rfl]
    refine ⟨h.symm, rfl, ?_, ?_, ?_⟩
    · simp [sceneAdd, List.mem_filter, hscene]
    · simp [List.mem_filter, hobjs]
    · simp [applyObjectState, hstate]
  | transform o prev next =>
    obtain rfl : o = obj := by simpa [actionObject] using hobj
    rw [undoSM_transform s o prev next rest h,
      redoSM_transform _ o prev next s.redoStack rfl]
    refine ⟨h.symm, rfl, Iff.rfl, Iff.rfl, ?_⟩
    have hst : s.states o = next := hwf
    simp [applyObjectState, hst]
  | unknown tag => exact hwf.elim

/-- Witness for C5: a transform action of object 5 from state
`((0,0,0),(0,0,0),(1,1,1))` to `((2,0,3),(0,1,0),(1,1,1))` sitting on top
of the undo stack; undo-then-redo restores the stacks, the object's
presence and its transform. -/
theorem undo_redo_roundtrip_witness :
    (redoSM (undoSM ⟨[5], [5],
        fun _ => ⟨⟨2, 0, 3⟩, ⟨0, 1, 0⟩, ⟨1, 1, 1⟩, 0⟩, some 5,
        [Action.transform 5 ⟨⟨0, 0, 0⟩, ⟨0, 0, 0⟩, ⟨1, 1, 1⟩, 0⟩
            ⟨⟨2, 0, 3⟩, ⟨0, 1, 0⟩, ⟨1, 1, 1⟩, 0⟩],
        []⟩)).undoStack
      = [Action.transform 5 ⟨⟨0, 0, 0⟩, ⟨0, 0, 0⟩, ⟨1, 1, 1⟩, 0⟩
          ⟨⟨2, 0, 3⟩, ⟨0, 1, 0⟩, ⟨1, 1, 1⟩, 0⟩] ∧
    (redoSM (undoSM ⟨[5], [5],
        fun _ => ⟨⟨2, 0, 3⟩, ⟨0, 1, 0⟩, ⟨1, 1, 1⟩, 0⟩, some 5,
        [Action.transform 5 ⟨⟨0, 0, 0⟩, ⟨0, 0, 0⟩, ⟨1, 1, 1⟩, 0⟩
            ⟨⟨2, 0, 3⟩, ⟨0, 1, 0⟩, ⟨1, 1, 1⟩, 0⟩],
        []⟩)).states 5
      = ⟨⟨2, 0, 3⟩, ⟨0, 1, 0⟩, ⟨1, 1, 1⟩, 0⟩ :=
  ⟨(undo_redo_roundtrip ⟨[5], [5],
      fun _ => ⟨⟨2, 0, 3⟩, ⟨0, 1, 0⟩, ⟨1, 1, 1⟩, 0⟩, some 5,
      [Action.transform 5 ⟨⟨0, 0, 0⟩, ⟨0, 0, 0⟩, ⟨1, 1, 1⟩, 0⟩
          ⟨⟨2, 0, 3⟩, ⟨0, 1, 0⟩, ⟨1, 1, 1⟩, 0⟩], []⟩ []
      (Action.transform 5 ⟨⟨0, 0, 0⟩, ⟨0, 0, 0⟩, ⟨1, 1, 1⟩, 0⟩
        ⟨⟨2, 0, 3⟩, ⟨0, 1, 0⟩, ⟨1, 1, 1⟩, 0⟩) 5 rfl rfl rfl).1,
   (undo_redo_roundtrip ⟨[5], [5],
      fun _ => ⟨⟨2, 0, 3⟩, ⟨0, 1, 0⟩, ⟨1, 1, 1⟩, 0⟩, some 5,
      [Action.transform 5 ⟨⟨0, 0, 0⟩, ⟨0, 0, 0⟩, ⟨1, 1, 1⟩, 0⟩
          ⟨⟨2, 0, 3⟩, ⟨0, 1, 0⟩, ⟨1, 1, 1⟩, 0⟩], []⟩ []
      (Action.transform 5 ⟨⟨0, 0, 0⟩, ⟨0, 0, 0⟩, ⟨1, 1, 1⟩, 0⟩
        ⟨⟨2, 0, 3⟩, ⟨0, 1, 0⟩, ⟨1, 1, 1⟩, 0⟩) 5 rfl rfl rfl).2.2.2.2⟩

/-- C7 counterexample: a state whose undo stack holds exactly one unknown
action.  After undo() the undo stack is empty — the action was not pushed
back onto the stack it was popped from and is not retrievable by a second
undo — it was moved to the redo stack instead. -/
theorem unknown_action_counterexample :
    (undoSM ⟨[], [], fun _ => ⟨⟨0, 0, 0⟩, ⟨0, 0, 0⟩, ⟨1, 1, 1⟩, 0⟩, none,
        [Action.unknown 0], []⟩).undoStack = [] ∧
    (undoSM ⟨[], [], fun _ => ⟨⟨0, 0, 0⟩, ⟨0, 0, 0⟩, ⟨1, 1, 1⟩, 0⟩, none,
        [Action.unknown 0], []⟩).redoStack = [Action.unknown 0] :=
  ⟨rfl, rfl⟩

/-- C7 amended: for every action of unknown kind, undo() and redo()
perform no scene, object-list, transform-state or selection mutation, and
the action is pushed onto the opposite stack rather than being lost —
undo() transfers it to the redo stack and redo() to the undo stack, so it
remains retrievable by the opposite operation (not by the same one). -/
theorem unknown_action_preserved (s : SMState) (tag : ℕ)
    (rest : List Action) :
    (s.undoStack = Action.unknown tag :: rest →
      undoSM s = { s with
                     undoStack := rest
                     redoStack := Action.unknown tag :: s.redoStack }) ∧
    (s.redoStack = Action.unknown tag :: rest →
      redoSM s = { s with
                     redoStack := rest
                     undoStack := Action.unknown tag :: s.undoStack }) := by
  constructor
  · intro h
    unfold undoSM
    rw [h]
  · intro h
    unfold redoSM
    rw [h]

/-- Witness for C7 at a state with an unknown action on each stack. -/
theorem unknown_action_preserved_witness :
    undoSM ⟨[], [], fun _ => ⟨⟨0, 0, 0⟩, ⟨0, 0, 0⟩, ⟨1, 1, 1⟩, 0⟩, none,
        [Action.unknown 7], [Action.unknown 8]⟩
      = ⟨[], [], fun _ => ⟨⟨0, 0, 0⟩, ⟨0, 0, 0⟩, ⟨1, 1, 1⟩, 0⟩, none,
        [], [Action.unknown 7, Action.unknown 8]⟩ ∧
    redoSM ⟨[], [], fun _ => ⟨⟨0, 0, 0⟩, ⟨0, 0, 0⟩, ⟨1, 1, 1⟩, 0⟩, none,
        [Action.unknown 8], [Action.unknown 7]⟩
      = ⟨[], [], fun _ => ⟨⟨0, 0, 0⟩, ⟨0, 0, 0⟩, ⟨1, 1, 1⟩, 0⟩, none,
        [Action.unknown 7, Action.unknown 8], []⟩ :=
  ⟨(unknown_action_preserved ⟨[], [],
      fun _ => ⟨⟨0, 0, 0⟩, ⟨0, 0, 0⟩, ⟨1, 1, 1⟩, 0⟩, none,
      [Action.unknown 7], [Action.unknown 8]⟩ 7 []).1 rfl,
   (unknown_action_preserved ⟨[], [],
      fun _ => ⟨⟨0, 0, 0⟩, ⟨0, 0, 0⟩, ⟨1, 1, 1⟩, 0⟩, none,
      [Action.unknown 8], [Action.unknown 7]⟩ 7 []).2 rfl⟩

/-- C10: calling undo() on an empty undo stack, or redo() on an empty redo
stack, is a complete no-op: the scene, the object list, the per-object
transform states, the selection and both stacks are all returned exactly
unchanged — no partial effect occurs. -/
theorem undo_redo_empty_noop (s : SMState) :
    (s.undoStack = [] → undoSM s = s) ∧
    (s.redoStack = [] → redoSM s = s) := by
  constructor
  · intro h
    unfold undoSM
    rw [h]
  · intro h
    unfold redoSM
    rw [h]

/-- Witness for C10 at a concrete state with both stacks empty. -/
theorem undo_redo_empty_noop_witness :
    undoSM ⟨[3], [3], fun _ => ⟨⟨0, 0, 0⟩, ⟨0, 0, 0⟩, ⟨1, 1, 1⟩, 0⟩,
        some 3, [], []⟩
      = ⟨[3], [3], fun _ => ⟨⟨0, 0, 0⟩, ⟨0, 0, 0⟩, ⟨1, 1, 1⟩, 0⟩,
        some 3, [], []⟩ ∧
    redoSM ⟨[3], [3], fun _ => ⟨⟨0, 0, 0⟩, ⟨0, 0, 0⟩, ⟨1, 1, 1⟩, 0⟩,
        some 3, [], []⟩
      = ⟨[3], [3], fun _ => ⟨⟨0, 0, 0⟩, ⟨0, 0, 0⟩, ⟨1, 1, 1⟩, 0⟩,
        some 3, [], []⟩ :=
  ⟨(undo_redo_empty_noop _).1 rfl, (undo_redo_empty_noop _).2 rfl⟩

/-- C6 counterexample: camera ray with origin (0,2,0) and direction
(1,-1,0); the object sits at the origin and is grabbed at the point
(1,1,0) on that ray (t = 1), which lies above the floor plane (y = 1 > 0).
A pointer-move at the same screen position re-fires the identical ray; the
translation handler intersects it with the floor plane at (2,0,0) and
moves the object to (1,0,0) ≠ (0,0,0): the grab-offset calculation drifts
for grab points above the floor plane. -/
theorem drag_drift_counterexample :
    rayAt ⟨⟨0, 2, 0⟩, ⟨1, -1, 0⟩⟩ 1 = ⟨1, 1, 0⟩ ∧
    handleTranslation ⟨⟨0, 2, 0⟩, ⟨1, -1, 0⟩⟩
        (dragOffset ⟨0, 0, 0⟩ ⟨1, 1, 0⟩) ⟨0, 0, 0⟩ = ⟨1, 0, 0⟩ ∧
    (⟨1, 0, 0⟩ : Vec3) ≠ ⟨0, 0, 0⟩ := by
  refine ⟨?_, ?_, ?_⟩
  · norm_num [rayAt]
  · norm_num [handleTranslation, intersectFloorPlane, rayAt, dragOffset]
  · simp

/-- C6 amended: the translate drag is drift-free exactly for grab points
on the floor plane: if the pointer is released at the grab screen position
(the identical ray, the camera pose being unchanged) and the grab point —
the raycast hit `P = origin + s·dir`, `s ≥ 0` — lies on the drag plane
`y = 0`, the translation handler returns the object's pre-drag position
(height included).  For grab points above the floor plane the object is
instead shifted by the horizontal offset between the grab point and the
ray's floor-plane intersection. -/
theorem drag_no_drift_floor_grab (O D P objPos : Vec3) (s : ℚ)
    (hP : P = rayAt ⟨O, D⟩ s) (hs : 0 ≤ s) (hPy : P.y = 0)
    (hDy : D.y ≠ 0) :
    handleTranslation ⟨O, D⟩ (dragOffset objPos P) objPos = objPos := by
  have hy : O.y + s * D.y = 0 := by
    rw [hP] at hPy
    simpa [rayAt] using hPy
  have ht : -O.y / D.y = s := by
    rw [div_eq_iff hDy]
    linarith
  have hfloor : intersectFloorPlane ⟨O, D⟩ = some P := by
    unfold intersectFloorPlane
    rw [if_neg hDy]
    simp only []
    rw [ht, if_pos hs, ← hP]
  unfold handleTranslation
  rw [hfloor]
  obtain ⟨ox, oy, oz⟩ := objPos
  simp only [dragOffset, Vec3.mk.injEq]
  refine ⟨by ring, by trivial, by ring⟩

/-- Witness for C6 (amended): grab point (2,0,0) on the floor plane, on
the ray from (0,2,0) with direction (1,-1,0) at t = 2; the object at
(5,0,7) stays at (5,0,7). -/
theorem drag_no_drift_floor_grab_witness :
    handleTranslation ⟨⟨0, 2, 0⟩, ⟨1, -1, 0⟩⟩
        (dragOffset ⟨5, 0, 7⟩ ⟨2, 0, 0⟩) ⟨5, 0, 7⟩ = ⟨5, 0, 7⟩ :=
  drag_no_drift_floor_grab ⟨0, 2, 0⟩ ⟨1, -1, 0⟩ ⟨2, 0, 0⟩ ⟨5, 0, 7⟩ 2
    (by norm_num [rayAt]) (by norm_num) rfl (by norm_num)

/-- C9 counterexample: the square (0,0),(1,0),(1,1),(0,1) is
counter-clockwise (so it is exactly the winding the Room stores and passes
to the editor: `normalizeWinding` keeps it).  For its edge
((0,0),(1,0)) — length 1 — the editor places the label at
(1/2, 1/50, 9/50): offset from the midpoint (1/2, 0) along (0,1), which is
`Room.createWalls`' inward normal for that edge, into the polygon interior
(both label coordinates lie strictly inside the unit square).  The
outward-perpendicular position the claim requires, (1/2, 1/50, -9/50),
lies outside the polygon (z = -9/50 < 0) and differs from the computed
position. -/
theorem edge_label_outward_counterexample :
    isClockwise [⟨0, 0⟩, ⟨1, 0⟩, ⟨1, 1⟩, ⟨0, 1⟩] = false ∧
    normalizeWinding [⟨0, 0⟩, ⟨1, 0⟩, ⟨1, 1⟩, ⟨0, 1⟩]
        = [⟨0, 0⟩, ⟨1, 0⟩, ⟨1, 1⟩, ⟨0, 1⟩] ∧
    edgeLabelPos ⟨0, 0⟩ ⟨1, 0⟩ 1 = ⟨1 / 2, 1 / 50, 9 / 50⟩ ∧
    inwardDir ⟨0, 0⟩ ⟨1, 0⟩ = ⟨0, 1⟩ ∧
    ((0 : ℚ) < 1 / 2 ∧ (1 : ℚ) / 2 < 1 ∧ (0 : ℚ) < 9 / 50 ∧
      (9 : ℚ) / 50 < 1) ∧
    edgeLabelPos ⟨0, 0⟩ ⟨1, 0⟩ 1 ≠ ⟨1 / 2, 1 / 50, -(9 / 50)⟩ ∧
    (-(9 / 50) : ℚ) < 0 := by
  have hcw : isClockwise [(⟨0, 0⟩ : Point), ⟨1, 0⟩, ⟨1, 1⟩, ⟨0, 1⟩]
      = false := by
    norm_num [isClockwise, shoelace, cycleEdges, pathEdges, edgeTerm]
  have hlabel : edgeLabelPos ⟨0, 0⟩ ⟨1, 0⟩ 1 = ⟨1 / 2, 1 / 50, 9 / 50⟩ := by
    norm_num [edgeLabelPos, offsetFromEdge, labelYPosition, Vec3.mk.injEq,
      max_eq_right]
  refine ⟨hcw, by simp [normalizeWinding, hcw], hlabel, ?_, by norm_num, ?_, by norm_num⟩
  · norm_num [inwardDir, Point.mk.injEq]
  · rw [hlabel]
    simp [Vec3.mk.injEq]
    norm_num

/-- C9 amended: every edge label of the Floor Dimension Editor is placed
at the edge midpoint offset by the configured label distance 0.18 along
the unit perpendicular `(-dz, dx)/length` — the direction
`Room.createWalls` records as the wall's *inward* normal for the
counter-clockwise point order the Room stores and hands to the editor —
i.e. toward the polygon interior, not along the outward perpendicular. -/
theorem edge_label_inward_offset (p1 p2 : Point) (len : ℚ)
    (hlen : 1 / 1000 ≤ len) :
    edgeLabelPos p1 p2 len
      = ⟨(p1.x + p2.x) / 2 + offsetFromEdge * (inwardDir p1 p2).x / len,
         labelYPosition,
         (p1.z + p2.z) / 2 + offsetFromEdge * (inwardDir p1 p2).z / len⟩ := by
  have hmax : max (1 / 1000 : ℚ) len = len := max_eq_right hlen
  unfold edgeLabelPos inwardDir
  simp only [hmax, Vec3.mk.injEq]
  refine ⟨by ring, by trivial, by ring⟩

/-- Witness for C9 (amended) at the unit edge ((0,0),(1,0)) with
length 1. -/
theorem edge_label_inward_offset_witness :
    edgeLabelPos ⟨0, 0⟩ ⟨1, 0⟩ 1 = ⟨1 / 2, 1 / 50, 9 / 50⟩ :=
  (edge_label_inward_offset ⟨0, 0⟩ ⟨1, 0⟩ 1 (by norm_num)).trans
    (by norm_num [inwardDir, offsetFromEdge, labelYPosition, Vec3.mk.injEq])

end RoomPlanner
